import Mathlib

/-!
Verification of the KML parsing core of rally-live-maps (`src/app.js`,
class `KMLParser`).  The JavaScript code is shallowly embedded: DOM trees
become an inductive `Node` type, JS numbers become `JSNum` (NaN, signed
infinity, or an exact rational), and the parser methods become pure Lean
functions.  Mutable parser state (`this.tracks`, `this.icons`) is passed
explicitly through `ParserState`.
-/

namespace RallyMaps

/-- Result of JavaScript numeric parsing: NaN, a signed infinity, or a
finite value modelled exactly as a rational. -/
inductive JSNum where
  | nan
  | inf (neg : Bool)
  | finite (q : Rat)
deriving DecidableEq, Repr

/-- Boolean NaN test, mirroring JavaScript `isNaN` on a parse result. -/
def JSNum.isNaNb : JSNum → Bool
  | .nan => true
  | _ => false

/-- Multiplication of a JS number by a positive natural constant
(`32 * scale`): infinities keep their sign, NaN stays NaN; the finite
case stays an exact normalized rational. -/
def JSNum.mulPos (k : Nat) : JSNum → JSNum
  | .nan => .nan
  | .inf b => .inf b
  | .finite q => .finite (mkRat (k * q.num) q.den)

/-- Halving of a JS number (`x / 2`), exact on the rational model. -/
def JSNum.half : JSNum → JSNum
  | .nan => .nan
  | .inf b => .inf b
  | .finite q => .finite (mkRat q.num (2 * q.den))

/-- Whitespace class of JavaScript (`\s` in regexes, and the set trimmed
by `trim`): ASCII whitespace plus the Unicode space separators, NBSP,
line and paragraph separators and the BOM. -/
def jsWs (c : Char) : Bool :=
  c = ' ' || c = '\t' || c = '\n' || c = '\r' ||
  c.val = 0x0B || c.val = 0x0C || c.val = 0xA0 || c.val = 0x1680 ||
  (0x2000 ≤ c.val && c.val ≤ 0x200A) ||
  c.val = 0x2028 || c.val = 0x2029 || c.val = 0x202F || c.val = 0x205F ||
  c.val = 0x3000 || c.val = 0xFEFF

/-- Value of a digit string, most significant first. -/
def digitsVal (ds : List Char) : Nat :=
  ds.foldl (fun a c => 10 * a + (c.toNat - 48)) 0

/-- JavaScript `parseFloat` on a character list: skip leading whitespace,
optional sign, then the longest prefix that is `Infinity` or a decimal
literal (digits, optional fraction, optional exponent); anything else
gives NaN.  Trailing junk is ignored, as in JS.  The finite value is the
exact rational `± mantissa * 10 ^ exponent`, built with `mkRat`. -/
def parseFloatL (cs0 : List Char) : JSNum :=
  let cs := cs0.dropWhile jsWs
  let sr : Bool × List Char :=
    match cs with
    | '+' :: r => (false, r)
    | '-' :: r => (true, r)
    | r => (false, r)
  let neg := sr.1
  let cs' := sr.2
  if cs'.take 8 = "Infinity".data then JSNum.inf neg
  else
    let intDs := cs'.takeWhile Char.isDigit
    let rest1 := cs'.dropWhile Char.isDigit
    let fr : List Char × List Char :=
      match rest1 with
      | '.' :: r => (r.takeWhile Char.isDigit, r.dropWhile Char.isDigit)
      | r => ([], r)
    let fracDs := fr.1
    let rest2 := fr.2
    if intDs = [] ∧ fracDs = [] then JSNum.nan
    else
      let ex : Bool × List Char :=
        match rest2 with
        | c :: r =>
          if c = 'e' ∨ c = 'E' then
            match r with
            | '+' :: r2 => (false, r2.takeWhile Char.isDigit)
            | '-' :: r2 => (true, r2.takeWhile Char.isDigit)
            | r2 => (false, r2.takeWhile Char.isDigit)
          else (false, [])
        | [] => (false, [])
      let expDs := ex.2
      let m : Nat := digitsVal intDs * 10 ^ fracDs.length + digitsVal fracDs
      let sm : Int := if neg then -(m : Int) else (m : Int)
      let e : Int :=
        if expDs = [] then 0
        else if ex.1 then -(digitsVal expDs : Int) else (digitsVal expDs : Int)
      let v : Rat :=
        if 0 ≤ e then mkRat (sm * (10 : Int) ^ e.toNat) (10 ^ fracDs.length)
        else mkRat sm (10 ^ fracDs.length * 10 ^ (-e).toNat)
      JSNum.finite v

/-- JavaScript `parseFloat` on a string. -/
def parseFloat (s : String) : JSNum := parseFloatL s.data

/-- JavaScript `String.prototype.trim` on a character list. -/
def trimL (cs : List Char) : List Char :=
  ((cs.dropWhile jsWs).reverse.dropWhile jsWs).reverse

/-- JavaScript `String.prototype.trim`. -/
def jsTrim (s : String) : String := String.mk (trimL s.data)

mutual

/-- JavaScript `split(/\s+/)`, state inside a token whose reversed
prefix is `acc`: a whitespace character closes the token. -/
def splitWsInTok (cs : List Char) (acc : List Char) : List (List Char) :=
  match cs with
  | [] => [acc.reverse]
  | c :: rest =>
    if jsWs c then acc.reverse :: splitWsSkip rest
    else splitWsInTok rest (c :: acc)

/-- JavaScript `split(/\s+/)`, state just after whitespace: further
whitespace extends the same separator run; end of input yields the
trailing empty token the regex split produces. -/
def splitWsSkip (cs : List Char) : List (List Char) :=
  match cs with
  | [] => [[]]
  | c :: rest =>
    if jsWs c then splitWsSkip rest
    else splitWsInTok rest [c]

end

/-- JavaScript `split(/\s+/)`: tokens between maximal whitespace runs,
with an empty leading (resp. trailing) token when the string starts
(resp. ends) with whitespace, exactly as the regex split behaves. -/
def splitWs (cs : List Char) : List (List Char) := splitWsInTok cs []

/-- JavaScript `split(',')`: split on every comma, keeping empty fields. -/
def splitComma (cs : List Char) : List (List Char) :=
  match cs with
  | [] => [[]]
  | c :: rest =>
    if c = ',' then [] :: splitComma rest
    else
      match splitComma rest with
      | [] => [[c]]
      | t :: ts => (c :: t) :: ts

/-- Parsed coordinate point, as pushed by `parseCoordinates`:
`{ lat, lon, alt }` with JS-number fields. -/
structure Coord where
  lat : JSNum
  lon : JSNum
  alt : JSNum
deriving DecidableEq, Repr

/-- Body of one iteration of the `parseCoordinates` loop
(src/app.js:718-731): skip blank tokens, split on commas, require at
least 2 fields, parse lon, lat and alt (alt defaults to 0 when the third
field is absent), and push the point only when none of them is NaN. -/
def coordStep (points : List Coord) (coord : List Char) : List Coord :=
  if trimL coord ≠ [] then
    let parts := splitComma coord
    if parts.length ≥ 2 then
      let lon := parseFloatL (parts.getD 0 [])
      let lat := parseFloatL (parts.getD 1 [])
      let alt := if parts.length > 2 then parseFloatL (parts.getD 2 []) else JSNum.finite 0
      if !lon.isNaNb && !lat.isNaNb && !alt.isNaNb then
        points ++ [⟨lat, lon, alt⟩]
      else points
    else points
  else points

/-- Embedding of `KMLParser.parseCoordinates` (src/app.js:714-735): split
the text on whitespace and run the loop body over the tuples in order. -/
def parseCoordinates (coordinatesText : String) : List Coord :=
  (splitWs coordinatesText.data).foldl coordStep []

/-- Acceptance test of one whitespace-delimited tuple, written from the
(amended) specification sentence: a tuple is accepted exactly when it has
at least 2 comma-separated fields and lon, lat, alt (alt defaulting to 0
when absent) all parse as non-NaN numbers. -/
def acceptTuple (tuple : List Char) : Option Coord :=
  let fields := splitComma tuple
  if fields.length ≥ 2 then
    let lon := parseFloatL (fields.getD 0 [])
    let lat := parseFloatL (fields.getD 1 [])
    let alt := if fields.length > 2 then parseFloatL (fields.getD 2 []) else JSNum.finite 0
    if !lon.isNaNb && !lat.isNaNb && !alt.isNaNb then some ⟨lat, lon, alt⟩ else none
  else none

/-- Specification-side rendering of the coordinate parser: keep, in input
order and without deduplication, exactly the accepted tuples. -/
def parseCoordinatesSpec (text : String) : List Coord :=
  (splitWs text.data).filterMap acceptTuple

/-- DOM tree node: an element with a tag name, attributes and children,
or a text node. -/
inductive Node where
  | element (tag : String) (attrs : List (String × String)) (children : List Node)
  | text (s : String)

/-- Whether a node is an element with the given tag (tag comparison is
case-sensitive, as in XML DOM). -/
def Node.tagIs (n : Node) (t : String) : Bool :=
  match n with
  | .element tg _ _ => tg == t
  | .text _ => false

/-- Value of an attribute on an element node. -/
def Node.attr (n : Node) (k : String) : Option String :=
  match n with
  | .element _ attrs _ => (attrs.find? (fun p => p.1 == k)).map (·.2)
  | .text _ => none

mutual

/-- DOM `textContent`: concatenation of all descendant text, in order. -/
def textContent (n : Node) : String :=
  match n with
  | .text s => s
  | .element _ _ cs => textContentList cs

/-- Text content of a list of sibling nodes. -/
def textContentList (ns : List Node) : String :=
  match ns with
  | [] => ""
  | n :: rest => textContent n ++ textContentList rest

end

mutual

/-- Element descendants of a node in document (pre-)order, excluding the
node itself. -/
def elemsIn (n : Node) : List Node :=
  match n with
  | .text _ => []
  | .element _ _ cs => elemsInList cs

/-- Element descendants of a sibling list, in document order. -/
def elemsInList (ns : List Node) : List Node :=
  match ns with
  | [] => []
  | n :: rest =>
    (match n with
     | .element _ _ _ => [n]
     | .text _ => []) ++ elemsIn n ++ elemsInList rest

end

mutual

/-- Element descendants of a node paired with their ancestor chains
(nearest ancestor first); `anc` is the chain above `n` itself. -/
def elemsAnc (n : Node) (anc : List Node) : List (Node × List Node) :=
  match n with
  | .text _ => []
  | .element _ _ cs => elemsAncList cs (n :: anc)

/-- Descendants-with-ancestors over a sibling list. -/
def elemsAncList (ns : List Node) (anc : List Node) : List (Node × List Node) :=
  match ns with
  | [] => []
  | n :: rest =>
    (match n with
     | .element _ _ _ => [(n, anc)]
     | .text _ => []) ++ elemsAnc n anc ++ elemsAncList rest anc

end

/-- DOM `element.getElementsByTagName(tag)` on a subtree (descendants
only), in document order. -/
def elemsByTag (n : Node) (tag : String) : List Node :=
  (elemsIn n).filter (fun e => e.tagIs tag)

/-- All elements of a document, root element included, in document order. -/
def docElems (doc : Node) : List Node :=
  (match doc with
   | .element _ _ _ => [doc]
   | .text _ => []) ++ elemsIn doc

/-- DOM `document.getElementsByTagName(tag)`: all matching elements of
the document, in document order. -/
def docElemsByTag (doc : Node) (tag : String) : List Node :=
  (docElems doc).filter (fun e => e.tagIs tag)

/-- Document elements with ancestor chains, in document order. -/
def docElemsAnc (doc : Node) : List (Node × List Node) :=
  (match doc with
   | .element _ _ _ => [(doc, [])]
   | .text _ => []) ++ elemsAnc doc []

/-- Matching document elements with ancestor chains, in document order. -/
def docElemsByTagAnc (doc : Node) (tag : String) : List (Node × List Node) :=
  (docElemsAnc doc).filter (fun e => e.1.tagIs tag)

/-- DOM `document.getElementById`: first element in document order whose
`id` attribute equals the argument. -/
def getElementById (doc : Node) (i : String) : Option Node :=
  (docElems doc).find? (fun e => e.attr "id" == some i)

/-- DOM `element.closest(tag)` given the element-and-ancestors chain
(self first): nearest node in the chain with the given tag. -/
def closestTag (chain : List Node) (tag : String) : Option Node :=
  chain.find? (fun n => n.tagIs tag)

/-- Information extracted from a Placemark by
`KMLParser.extractPlacemarkInfo` (src/app.js:601-629): `name`,
`description` and `style` start as `null` and are filled from the first
matching descendant element, with trimmed text content. -/
structure PlacemarkInfo where
  name : Option String
  description : Option String
  style : Option String
deriving DecidableEq, Repr

/-- Embedding of `KMLParser.extractPlacemarkInfo` (src/app.js:601-629).
The `index` parameter exists in the source but is unused there; defaults
are applied by the callers via `||`. -/
def extractPlacemarkInfo (placemark : Option Node) (index : Nat) : PlacemarkInfo :=
  match placemark with
  | none => { name := none, description := none, style := none }
  | some pm =>
    { name := ((elemsByTag pm "name").head?).map (fun e => jsTrim (textContent e)),
      description := ((elemsByTag pm "description").head?).map (fun e => jsTrim (textContent e)),
      style := ((elemsByTag pm "styleUrl").head?).map (fun e => jsTrim (textContent e)) }

/-- JavaScript `a || b` for a possibly-null string `a`: the fallback is
used when `a` is `null` or the empty string (both falsy). -/
def strOrDefault (a : Option String) (b : String) : String :=
  match a with
  | some s => if s = "" then b else s
  | none => b

/-- JavaScript falsiness test for a possibly-null string (`!s`): true
for `null` and for the empty string. -/
def strFalsy (a : Option String) : Bool :=
  match a with
  | some s => s == ""
  | none => true

/-- Icon style record built by `KMLParser.extractIconStyle`
(src/app.js:636-707): `iconUrl`, `iconSize`, `iconAnchor`, all starting
as `null`. -/
structure IconStyleRec where
  iconUrl : Option String
  iconSize : Option (JSNum × JSNum)
  iconAnchor : Option (JSNum × JSNum)
deriving DecidableEq, Repr

/-- Record with all icon-style fields absent. -/
def IconStyleRec.empty : IconStyleRec :=
  { iconUrl := none, iconSize := none, iconAnchor := none }

/-- Shared body of the two identical blocks of `extractIconStyle`
(src/app.js:649-668 and 682-700): from an `IconStyle` element, read
`Icon > href` into `iconUrl` and, when `scale` parses to a non-NaN
number, set `iconSize = [32*scale, 32*scale]` and
`iconAnchor = [32*scale/2, 32*scale/2]`. -/
def readIconStyleBlock (iconStyle : Node) (st : IconStyleRec) : IconStyleRec :=
  let st1 :=
    match (elemsByTag iconStyle "Icon").head? with
    | some icon =>
      match (elemsByTag icon "href").head? with
      | some href => { st with iconUrl := some (jsTrim (textContent href)) }
      | none => st
    | none => st
  match (elemsByTag iconStyle "scale").head? with
  | some scale =>
    let scaleValue := parseFloat (textContent scale)
    if scaleValue.isNaNb = false then
      { st1 with
        iconSize := some (scaleValue.mulPos 32, scaleValue.mulPos 32),
        iconAnchor := some ((scaleValue.mulPos 32).half, (scaleValue.mulPos 32).half) }
    else st1
  | none => st1

/-- Inline phase of `extractIconStyle` (src/app.js:646-669): first
`Style` element of the placemark, then its first `IconStyle` block. -/
def inlineIconStyle (pm : Node) : IconStyleRec :=
  match (elemsByTag pm "Style").head? with
  | some styleElement =>
    match (elemsByTag styleElement "IconStyle").head? with
    | some iconStyle => readIconStyleBlock iconStyle IconStyleRec.empty
    | none => IconStyleRec.empty
  | none => IconStyleRec.empty

/-- JavaScript `s.replace('#', '')`: remove the FIRST occurrence of the
character anywhere in the string (not only a leading one). -/
def replaceFirstHashL (cs : List Char) : List Char :=
  match cs with
  | [] => []
  | c :: rest => if c = '#' then rest else c :: replaceFirstHashL rest

/-- String version of `replace('#', '')`. -/
def replaceFirstHash (s : String) : String := String.mk (replaceFirstHashL s.data)

/-- Embedding of `KMLParser.extractIconStyle` (src/app.js:636-707): read
the inline `Style > IconStyle` block first; then, only when the inline
icon URL is falsy (`!style.iconUrl` in JS: absent, or present but the
empty string), resolve `styleUrl` (trim, drop the first `#`, whole
document id lookup) and read the referenced node's `IconStyle` block
over the record left by the inline phase. -/
def extractIconStyle (doc : Node) (placemark : Option Node) : IconStyleRec :=
  match placemark with
  | none => IconStyleRec.empty
  | some pm =>
    let style := inlineIconStyle pm
    if strFalsy style.iconUrl then
      match (elemsByTag pm "styleUrl").head? with
      | some styleUrl =>
        let styleId := replaceFirstHash (jsTrim (textContent styleUrl))
        match getElementById doc styleId with
        | some referencedStyle =>
          match (elemsByTag referencedStyle "IconStyle").head? with
          | some iconStyle => readIconStyleBlock iconStyle style
          | none => style
        | none => style
      | none => style
    else style

/-- Track record pushed by `parseLineStrings` (src/app.js:543-551). -/
structure Track where
  name : String
  description : Option String
  points : List Coord
  originalIndex : Nat
  style : Option String
deriving DecidableEq, Repr

/-- Icon record pushed by `parsePoints` (src/app.js:583-592). -/
structure Icon where
  name : String
  description : Option String
  position : Coord
  originalIndex : Nat
  iconUrl : Option String
  iconSize : Option (JSNum × JSNum)
  iconAnchor : Option (JSNum × JSNum)
  style : Option String
deriving DecidableEq, Repr

/-- Body of one iteration of the `parseLineStrings` loop
(src/app.js:532-553) at encounter index `i`: skip when the coordinates
element is absent or blank after trimming, or when no point parses;
otherwise build the Track, with placemark lookup via `closest`. -/
def lineStringTrack (doc : Node) (i : Nat) (ls : Node) (anc : List Node) : Option Track :=
  match (elemsByTag ls "coordinates").head? with
  | none => none
  | some coordinatesElement =>
    if jsTrim (textContent coordinatesElement) ≠ "" then
      let coordinatesText := jsTrim (textContent coordinatesElement)
      match parseCoordinates coordinatesText with
      | [] => none
      | p0 :: ps =>
        let placemark := closestTag (ls :: anc) "Placemark"
        let trackInfo := extractPlacemarkInfo placemark i
        some { name := strOrDefault trackInfo.name ("Track " ++ toString (i + 1)),
               description := trackInfo.description,
               points := p0 :: ps,
               originalIndex := i,
               style := trackInfo.style }
    else none

/-- Embedding of `KMLParser.parseLineStrings` (src/app.js:529-555): loop
over every `LineString` of the document in document order, with the loop
counter as encounter index. -/
def parseLineStringsF (doc : Node) : List Track :=
  (docElemsByTagAnc doc "LineString").enum.filterMap
    (fun e => lineStringTrack doc e.1 e.2.1 e.2.2)

/-- Body of one iteration of the `parsePoints` loop (src/app.js:564-592)
at encounter index `i`: like the track case, plus icon style extraction;
`position` is the first parsed coordinate. -/
def pointIcon (doc : Node) (i : Nat) (pt : Node) (anc : List Node) : Option Icon :=
  match (elemsByTag pt "coordinates").head? with
  | none => none
  | some coordinatesElement =>
    if jsTrim (textContent coordinatesElement) ≠ "" then
      let coordinatesText := jsTrim (textContent coordinatesElement)
      match parseCoordinates coordinatesText with
      | [] => none
      | c0 :: _ =>
        let placemark := closestTag (pt :: anc) "Placemark"
        let iconInfo := extractPlacemarkInfo placemark i
        let iconStyle := extractIconStyle doc placemark
        some { name := strOrDefault iconInfo.name ("Point " ++ toString (i + 1)),
               description := iconInfo.description,
               position := c0,
               originalIndex := i,
               iconUrl := iconStyle.iconUrl,
               iconSize := iconStyle.iconSize,
               iconAnchor := iconStyle.iconAnchor,
               style := iconInfo.style }
    else none

/-- Embedding of `KMLParser.parsePoints` (src/app.js:561-593). -/
def parsePointsF (doc : Node) : List Icon :=
  (docElemsByTagAnc doc "Point").enum.filterMap
    (fun e => pointIcon doc e.1 e.2.1 e.2.2)

/-- Mutable state of a `KMLParser` instance: `this.tracks` and
`this.icons`. -/
structure ParserState where
  tracks : List Track
  icons : List Icon
deriving DecidableEq, Repr

/-- Return value of `parseKML`: the `{tracks, icons}` object. -/
structure ParseResult where
  tracks : List Track
  icons : List Icon
deriving DecidableEq, Repr

/-- Embedding of `KMLParser.parseKML` (src/app.js:508-523): reset
`this.tracks` and `this.icons`, run both passes (which append to the
fresh buffers), and return `{tracks, icons}` together with the new
state. -/
def parseKMLSt (st : ParserState) (kmlDoc : Node) : ParserState × ParseResult :=
  let st1 : ParserState := { tracks := [], icons := [] }
  let st2 : ParserState := { st1 with tracks := st1.tracks ++ parseLineStringsF kmlDoc }
  let st3 : ParserState := { st2 with icons := st2.icons ++ parsePointsF kmlDoc }
  (st3, { tracks := st3.tracks, icons := st3.icons })

/-- Shared tail of `loadKMLFile` (src/app.js:742-759) and
`loadKMLFromURL` (src/app.js:766-788), starting from the document the
markup parser produced: when a `parsererror` element is present anywhere
in the document, throw the fixed error before touching the parser state;
otherwise run `parseKML`. -/
def loadKMLParsed (st : ParserState) (kmlDoc : Node) :
    ParserState × Except String ParseResult :=
  match (docElemsByTag kmlDoc "parsererror").head? with
  | some _ => (st, Except.error "Invalid KML file format")
  | none =>
    let r := parseKMLSt st kmlDoc
    (r.1, Except.ok r.2)

/-! Concrete example documents used as test inputs. -/

/-- LineString element with the given coordinates text. -/
def mkLineString (t : String) : Node :=
  .element "LineString" [] [.element "coordinates" [] [.text t]]

/-- Point element with the given coordinates text. -/
def mkPoint (t : String) : Node :=
  .element "Point" [] [.element "coordinates" [] [.text t]]

/-- Document with 3 LineString nodes, the 2nd with whitespace-only
coordinates. -/
def doc3LS : Node :=
  .element "kml" [] [mkLineString "1,2", mkLineString "   ", mkLineString "3,4"]

/-- Document with one LineString carrying the coordinate text of the
worked example. -/
def docC5 : Node :=
  .element "kml" [] [mkLineString "17.63,47.69,120 17.64,47.70"]

/-- Scale element of the worked icon example. -/
def scaleC6 : Node := .element "scale" [] [.text "2"]

/-- Inline IconStyle of the worked icon example: scale 2, no href. -/
def inlineIconStyleC6 : Node := .element "IconStyle" [] [scaleC6]

/-- StyleUrl element of the worked icon example. -/
def styleUrlC6 : Node := .element "styleUrl" [] [.text "#s1"]

/-- Placemark of the worked icon example: a Point, an inline Style whose
IconStyle has scale 2 and no href, and a styleUrl to `#s1`. -/
def pmC6 : Node :=
  .element "Placemark" []
    [mkPoint "17.63,47.69", .element "Style" [] [inlineIconStyleC6], styleUrlC6]

/-- Href element of the referenced style of the worked icon example. -/
def hrefC6 : Node := .element "href" [] [.text "icon.png"]

/-- Icon element of the referenced style of the worked icon example. -/
def iconC6 : Node := .element "Icon" [] [hrefC6]

/-- IconStyle of the referenced style of the worked icon example. -/
def refIconStyleC6 : Node := .element "IconStyle" [] [iconC6]

/-- Referenced shared Style with id `s1` of the worked icon example. -/
def refStyleC6 : Node := .element "Style" [("id", "s1")] [refIconStyleC6]

/-- Document of the worked icon example: the placemark plus a shared
Style with id `s1` whose IconStyle carries `href=icon.png`. -/
def docC6 : Node :=
  .element "kml" [] [pmC6, refStyleC6]

/-- Placemark with an inline IconStyle that has only a scale (2), plus a
styleUrl to `#r1`. -/
def pmC3 : Node :=
  .element "Placemark" []
    [.element "Style" [] [.element "IconStyle" [] [.element "scale" [] [.text "2"]]],
     .element "styleUrl" [] [.text "#r1"]]

/-- Document pairing `pmC3` with a referenced Style `r1` whose IconStyle
has scale 3 and `href=ref.png`. -/
def docC3 : Node :=
  .element "kml" []
    [pmC3,
     .element "Style" [("id", "r1")]
       [.element "IconStyle" []
         [.element "scale" [] [.text "3"],
          .element "Icon" [] [.element "href" [] [.text "ref.png"]]]]]

/-- Placemark with an inline IconStyle carrying an href. -/
def pmInlineHref : Node :=
  .element "Placemark" []
    [.element "Style" []
      [.element "IconStyle" []
        [.element "Icon" [] [.element "href" [] [.text "a.png"]]]],
     .element "styleUrl" [] [.text "#r1"]]

/-- Document pairing `pmInlineHref` with a referenced Style `r1` that
would give a different href. -/
def docInlineHref : Node :=
  .element "kml" []
    [pmInlineHref,
     .element "Style" [("id", "r1")]
       [.element "IconStyle" []
         [.element "Icon" [] [.element "href" [] [.text "b.png"]]]]]

/-- Placemark whose styleUrl text is `s#1`: no LEADING hash, but a hash
in the middle. -/
def pmHashMid : Node :=
  .element "Placemark" [] [.element "styleUrl" [] [.text "s#1"]]

/-- Document pairing `pmHashMid` with a Style whose id is `s1` (the
string obtained by deleting the interior hash). -/
def docHashMid : Node :=
  .element "kml" []
    [pmHashMid,
     .element "Style" [("id", "s1")]
       [.element "IconStyle" []
         [.element "Icon" [] [.element "href" [] [.text "x.png"]]]]]

/-- Placemark whose styleUrl references a missing id. -/
def pmNoRef : Node :=
  .element "Placemark" []
    [mkPoint "1,2", .element "styleUrl" [] [.text "#missing"]]

/-- Document containing only `pmNoRef`. -/
def docNoRef : Node :=
  .element "kml" [] [pmNoRef]

/-- Document whose markup parser output contains a `parsererror`
element. -/
def docParseError : Node :=
  .element "parsererror" [] [.text "unclosed tag"]

/-- Nonempty parser state, to exhibit that a failed load leaves stored
tracks and icons untouched. -/
def stPrev : ParserState :=
  { tracks := [{ name := "old", description := none,
                 points := [⟨.finite 1, .finite 2, .finite 0⟩],
                 originalIndex := 0, style := none }],
    icons := [] }

/-- Placemark whose name element is whitespace-only, around a
LineString. -/
def pmBlankNameLS : Node :=
  .element "Placemark" []
    [.element "name" [] [.text "   "], mkLineString "1,2"]

/-- Document containing `pmBlankNameLS`. -/
def docBlankNameLS : Node :=
  .element "kml" [] [pmBlankNameLS]

/-- Placemark whose name element is whitespace-only, around a Point. -/
def pmBlankNamePt : Node :=
  .element "Placemark" []
    [.element "name" [] [.text "   "], mkPoint "1,2"]

/-- Document containing `pmBlankNamePt`. -/
def docBlankNamePt : Node :=
  .element "kml" [] [pmBlankNamePt]

/-- Document with a bare LineString and a bare Point, neither inside a
Placemark. -/
def docBare : Node :=
  .element "kml" [] [mkLineString "1,2", mkPoint "3,4"]

/-! Helper lemmas. -/

/-- dropWhile is the identity on a list none of whose elements satisfy
the predicate. -/
theorem dropWhile_eq_self_of_forall {α : Type} (p : α → Bool) :
    ∀ l : List α, (∀ c ∈ l, p c = false) → l.dropWhile p = l := by
  intro l h
  cases l with
  | nil => rfl
  | cons c r =>
    have hc : p c = false := h c (by simp)
    simp [List.dropWhile_cons, hc]

/-- trimL is the identity on a whitespace-free character list. -/
theorem trimL_eq_self_of_no_ws (t : List Char)
    (h : ∀ c ∈ t, jsWs c = false) : trimL t = t := by
  unfold trimL
  rw [dropWhile_eq_self_of_forall _ t h]
  rw [dropWhile_eq_self_of_forall _ t.reverse (by intro c hc; exact h c (List.mem_reverse.mp hc))]
  exact List.reverse_reverse t

/-- Every token produced by the whitespace splitter is whitespace-free
(joint statement for the two mutual splitter states). -/
theorem splitWs_no_ws_aux :
    ∀ cs : List Char,
      ((∀ acc, (∀ c ∈ acc, jsWs c = false) →
        ∀ t ∈ splitWsInTok cs acc, ∀ c ∈ t, jsWs c = false) ∧
       (∀ t ∈ splitWsSkip cs, ∀ c ∈ t, jsWs c = false)) := by
  intro cs
  induction cs with
  | nil =>
    constructor
    · intro acc hacc t ht c hc
      rw [splitWsInTok] at ht
      simp only [List.mem_singleton] at ht
      subst ht
      exact hacc c (List.mem_reverse.mp hc)
    · intro t ht c hc
      rw [splitWsSkip] at ht
      simp only [List.mem_singleton] at ht
      subst ht
      cases hc
  | cons ch rest ih =>
    constructor
    · intro acc hacc t ht c hc
      rw [splitWsInTok] at ht
      by_cases hws : jsWs ch
      · simp only [hws, if_true, List.mem_cons] at ht
        rcases ht with h1 | h2
        · subst h1; exact hacc c (List.mem_reverse.mp hc)
        · exact ih.2 t h2 c hc
      · simp only [hws, if_false] at ht
        refine ih.1 (ch :: acc) ?_ t ht c hc
        intro x hx
        rcases List.mem_cons.mp hx with h1 | h2
        · subst h1; simpa using hws
        · exact hacc x h2
    · intro t ht c hc
      rw [splitWsSkip] at ht
      by_cases hws : jsWs ch
      · simp only [hws, if_true] at ht
        exact ih.2 t ht c hc
      · simp only [hws, if_false] at ht
        refine ih.1 [ch] ?_ t ht c hc
        intro x hx
        rcases List.mem_cons.mp hx with h1 | h2
        · subst h1; simpa using hws
        · cases h2

/-- Every token of the whitespace split is whitespace-free. -/
theorem splitWs_no_ws (cs : List Char) :
    ∀ t ∈ splitWs cs, ∀ c ∈ t, jsWs c = false :=
  (splitWs_no_ws_aux cs).1 [] (by intro x hx; cases hx)

/-- One source loop step equals appending the specification-side
acceptance result, for whitespace-free tokens. -/
theorem coordStep_eq_acceptTuple (t : List Char)
    (h : ∀ c ∈ t, jsWs c = false) (points : List Coord) :
    coordStep points t = points ++ (acceptTuple t).toList := by
  have htr : trimL t = t := trimL_eq_self_of_no_ws t h
  unfold coordStep acceptTuple
  rw [htr]
  by_cases hnil : t = []
  · subst hnil
    simp [splitComma]
  · simp only [hnil, ne_eq, not_false_iff, if_true]
    split
    · split <;> (split <;> simp)
    · simp

/-- Folding the source loop body equals filterMap of the acceptance
test, for whitespace-free token lists. -/
theorem foldl_coordStep_eq (ts : List (List Char))
    (h : ∀ t ∈ ts, ∀ c ∈ t, jsWs c = false) :
    ∀ points : List Coord,
      ts.foldl coordStep points = points ++ ts.filterMap acceptTuple := by
  induction ts with
  | nil => intro points; simp
  | cons t ts ih =>
    intro points
    have ht : ∀ c ∈ t, jsWs c = false := h t (by simp)
    have hts : ∀ t' ∈ ts, ∀ c ∈ t', jsWs c = false := by
      intro t' ht' c hc; exact h t' (List.mem_cons_of_mem _ ht') c hc
    rw [List.foldl_cons, ih hts, coordStep_eq_acceptTuple t ht, List.filterMap_cons]
    cases acceptTuple t <;> simp

/-- A produced track records the encounter index it was built at. -/
theorem lineStringTrack_originalIndex (doc : Node) (i : Nat) (ls : Node)
    (anc : List Node) (t : Track) (h : lineStringTrack doc i ls anc = some t) :
    t.originalIndex = i := by
  unfold lineStringTrack at h
  split at h
  · cases h
  · split at h
    · dsimp only at h
      split at h
      · cases h
      · cases h; rfl
    · cases h

/-- A produced icon records the encounter index it was built at. -/
theorem pointIcon_originalIndex (doc : Node) (i : Nat) (pt : Node)
    (anc : List Node) (ic : Icon) (h : pointIcon doc i pt anc = some ic) :
    ic.originalIndex = i := by
  unfold pointIcon at h
  split at h
  · cases h
  · split at h
    · dsimp only at h
      split at h
      · cases h
      · cases h; rfl
    · cases h

/-- A LineString whose coordinates element is absent or blank after
trimming emits no track. -/
theorem lineStringTrack_blank (doc : Node) (i : Nat) (ls : Node) (anc : List Node)
    (h : (elemsByTag ls "coordinates").head? = none ∨
      ∃ ce, (elemsByTag ls "coordinates").head? = some ce ∧ jsTrim (textContent ce) = "") :
    lineStringTrack doc i ls anc = none := by
  unfold lineStringTrack
  rcases h with h | ⟨ce, hce, hb⟩
  · rw [h]
  · simp only [hce, hb, ne_eq, not_true_eq_false, if_false]

/-- Every member of the track list arises from the LineString at its own
recorded encounter index. -/
theorem mem_parseLineStringsF (doc : Node) (t : Track) (h : t ∈ parseLineStringsF doc) :
    ∃ e, (docElemsByTagAnc doc "LineString")[t.originalIndex]? = some e ∧
      lineStringTrack doc t.originalIndex e.1 e.2 = some t := by
  unfold parseLineStringsF at h
  obtain ⟨x, hx, hf⟩ := List.mem_filterMap.mp h
  have hg := List.mem_enum_iff_getElem?.mp hx
  have hidx := lineStringTrack_originalIndex doc x.1 x.2.1 x.2.2 t hf
  refine ⟨x.2, ?_, ?_⟩
  · rw [hidx]; exact hg
  · rw [hidx]; exact hf

/-- Explicit form of a successfully produced track. -/
theorem lineStringTrack_eq_of (doc : Node) (i : Nat) (ls : Node) (anc : List Node)
    (ce : Node) (p0 : Coord) (ps : List Coord)
    (hce : (elemsByTag ls "coordinates").head? = some ce)
    (hb : jsTrim (textContent ce) ≠ "")
    (hpc : parseCoordinates (jsTrim (textContent ce)) = p0 :: ps) :
    lineStringTrack doc i ls anc =
      some { name := strOrDefault
               (extractPlacemarkInfo (closestTag (ls :: anc) "Placemark") i).name
               ("Track " ++ toString (i + 1)),
             description := (extractPlacemarkInfo (closestTag (ls :: anc) "Placemark") i).description,
             points := p0 :: ps,
             originalIndex := i,
             style := (extractPlacemarkInfo (closestTag (ls :: anc) "Placemark") i).style } := by
  unfold lineStringTrack
  simp only [hce, hb, ne_eq, not_false_iff, if_true, hpc]

/-- Explicit form of a successfully produced icon. -/
theorem pointIcon_eq_of (doc : Node) (i : Nat) (pt : Node) (anc : List Node)
    (ce : Node) (c0 : Coord) (cs : List Coord)
    (hce : (elemsByTag pt "coordinates").head? = some ce)
    (hb : jsTrim (textContent ce) ≠ "")
    (hpc : parseCoordinates (jsTrim (textContent ce)) = c0 :: cs) :
    pointIcon doc i pt anc =
      some { name := strOrDefault
               (extractPlacemarkInfo (closestTag (pt :: anc) "Placemark") i).name
               ("Point " ++ toString (i + 1)),
             description := (extractPlacemarkInfo (closestTag (pt :: anc) "Placemark") i).description,
             position := c0,
             originalIndex := i,
             iconUrl := (extractIconStyle doc (closestTag (pt :: anc) "Placemark")).iconUrl,
             iconSize := (extractIconStyle doc (closestTag (pt :: anc) "Placemark")).iconSize,
             iconAnchor := (extractIconStyle doc (closestTag (pt :: anc) "Placemark")).iconAnchor,
             style := (extractPlacemarkInfo (closestTag (pt :: anc) "Placemark") i).style } := by
  unfold pointIcon
  simp only [hce, hb, ne_eq, not_false_iff, if_true, hpc]

/-- The parse of an empty coordinate text is empty. -/
theorem parseCoordinates_empty : parseCoordinates "" = [] := rfl

/-- The icon-URL field set by a style block whose Icon has an href. -/
theorem readIconStyleBlock_iconUrl (ic : Node) (st : IconStyleRec) (icn hr : Node)
    (h1 : (elemsByTag ic "Icon").head? = some icn)
    (h2 : (elemsByTag icn "href").head? = some hr) :
    (readIconStyleBlock ic st).iconUrl = some (jsTrim (textContent hr)) := by
  unfold readIconStyleBlock
  simp only [h1, h2]
  split
  · split <;> simp
  · simp

/-- Halving after scaling by 32 equals scaling by 16 on JS numbers. -/
theorem half_mulPos_32 (s : JSNum) : (s.mulPos 32).half = s.mulPos 16 := by
  cases s with
  | nan => rfl
  | inf b => rfl
  | finite q =>
    simp only [JSNum.mulPos, JSNum.half, JSNum.finite.injEq]
    have hA : mkRat (32 * q.num) q.den =
        mkRat (mkRat (32 * q.num) q.den).num (mkRat (32 * q.num) q.den).den :=
      (Rat.mkRat_self _).symm
    have h2 : 32 * q.num * ((mkRat (32 * q.num) q.den).den : Int) =
        (mkRat (32 * q.num) q.den).num * (q.den : Int) :=
      (Rat.mkRat_eq_iff q.den_nz (mkRat (32 * q.num) q.den).den_nz).mp hA
    refine (Rat.mkRat_eq_iff
      (Nat.mul_ne_zero (by decide) (mkRat (32 * q.num) q.den).den_nz) q.den_nz).mpr ?_
    push_cast
    push_cast at h2
    nlinarith [h2]

/-! Claim theorems. -/

/-- C1 (counterexample): the claim requires lon, lat and alt to parse as
FINITE numbers for a tuple to be kept, predicting that `"Infinity,1"`
yields no point; the code only checks `!isNaN`, so the tuple is accepted
with an infinite longitude. -/
theorem parseCoordinates_infinity_counterexample :
    parseCoordinates "Infinity,1" =
      [{ lat := JSNum.finite 1, lon := JSNum.inf false, alt := JSNum.finite 0 }] ∧
    parseCoordinates "Infinity,1" ≠ [] := by
  constructor
  · decide
  · decide

/-- C1 (amended): parseCoordinates splits the text on whitespace runs,
splits each tuple on commas, and keeps a tuple exactly when it has at
least 2 fields and lon (field 0), lat (field 1) and alt (field 2,
defaulting to 0 when absent) all parse as non-NaN numbers (infinite
values are accepted); all other tuples are dropped, and the accepted
tuples keep their input order with no deduplication, as expressed by the
filterMap form `parseCoordinatesSpec`. -/
theorem parseCoordinates_eq_spec :
    ∀ text : String, parseCoordinates text = parseCoordinatesSpec text := by
  intro text
  unfold parseCoordinates parseCoordinatesSpec
  rw [foldl_coordStep_eq _ (splitWs_no_ws _) []]
  rfl

/-- C1 witness: the equivalence at a concrete coordinate text. -/
theorem parseCoordinates_eq_spec_witness :
    parseCoordinates "17.63,47.69,120 x 17.64,47.70" =
      parseCoordinatesSpec "17.63,47.69,120 x 17.64,47.70" :=
  parseCoordinates_eq_spec "17.63,47.69,120 x 17.64,47.70"

/-- C2: when the parsed document contains a `parsererror` element, the
load fails with the single fixed message `Invalid KML file format`, no
`{tracks, icons}` result is produced, and the previously stored parser
state is returned untouched (both `loadKMLFile` and `loadKMLFromURL`
share this tail, modelled by `loadKMLParsed`). -/
theorem loadKML_parsererror_aborts (st : ParserState) (kmlDoc : Node) (e : Node)
    (h : (docElemsByTag kmlDoc "parsererror").head? = some e) :
    loadKMLParsed st kmlDoc = (st, Except.error "Invalid KML file format") := by
  unfold loadKMLParsed
  rw [h]

/-- C2 witness: a concrete document whose root is a `parsererror`
element, loaded over a nonempty previous state. -/
theorem loadKML_parsererror_aborts_witness :
    (docElemsByTag docParseError "parsererror").head? = some docParseError ∧
    loadKMLParsed stPrev docParseError = (stPrev, Except.error "Invalid KML file format") :=
  ⟨rfl, loadKML_parsererror_aborts stPrev docParseError docParseError rfl⟩

/-- C3 (counterexample): the claim says every inline IconStyle field,
including the scale-derived size and anchor, wins unconditionally over
the referenced style; here the inline IconStyle (scale 2, no href)
yields size 64 and anchor 32, yet the referenced style r1 (scale 3)
overwrites them to 96 and 48 because the referenced branch runs whenever
the inline block produced no icon URL. -/
theorem inline_scale_overridden_counterexample :
    inlineIconStyle pmC3 =
      { iconUrl := none,
        iconSize := some (JSNum.finite 64, JSNum.finite 64),
        iconAnchor := some (JSNum.finite 32, JSNum.finite 32) } ∧
    extractIconStyle docC3 (some pmC3) =
      { iconUrl := some "ref.png",
        iconSize := some (JSNum.finite 96, JSNum.finite 96),
        iconAnchor := some (JSNum.finite 48, JSNum.finite 48) } := by
  constructor
  · decide
  · decide

/-- C3 (amended): the inline IconStyle takes precedence only through its
icon URL: when the inline block yields a NONEMPTY href, the
styleUrl-referenced style is never consulted and the whole inline
result stands; when the inline href is absent or trims to the empty
string (both falsy under the JS guard), the referenced style is read
and may overwrite the inline fields, including the scale-derived size
and anchor. -/
theorem inline_href_precedence (doc : Node) (pm : Node) (u : String)
    (h : (inlineIconStyle pm).iconUrl = some u) (hne : u ≠ "") :
    extractIconStyle doc (some pm) = inlineIconStyle pm := by
  unfold extractIconStyle
  simp only [h, strFalsy]
  rw [if_neg (by simp [hne])]

/-- C3 witness: a placemark whose inline IconStyle carries
`href=a.png` next to a styleUrl whose referenced style would give
`b.png`; the inline result stands. -/
theorem inline_href_precedence_witness :
    (inlineIconStyle pmInlineHref).iconUrl = some "a.png" ∧
    extractIconStyle docInlineHref (some pmInlineHref) = inlineIconStyle pmInlineHref :=
  ⟨by decide, inline_href_precedence docInlineHref pmInlineHref "a.png" (by decide) (by decide)⟩

/-- C4: a LineString whose coordinates text is absent, empty or
whitespace-only emits no track and no placeholder, while the encounter
counter still advances past it: no emitted track carries its index, and
in the concrete three-LineString document whose 2nd node has blank
coordinates exactly 2 tracks are produced, with originalIndex 0 and 2. -/
theorem blank_linestring_skipped (doc : Node) (i : Nat) (ls : Node) (anc : List Node)
    (hget : (docElemsByTagAnc doc "LineString")[i]? = some (ls, anc))
    (hblank : (elemsByTag ls "coordinates").head? = none ∨
      ∃ ce, (elemsByTag ls "coordinates").head? = some ce ∧ jsTrim (textContent ce) = "") :
    (∀ t ∈ parseLineStringsF doc, t.originalIndex ≠ i) ∧
    (parseLineStringsF doc3LS).map Track.originalIndex = [0, 2] ∧
    (parseLineStringsF doc3LS).length = 2 := by
  refine ⟨?_, by decide, by decide⟩
  intro t ht hidx
  obtain ⟨e, hg, hf⟩ := mem_parseLineStringsF doc t ht
  rw [hidx] at hg hf
  rw [hget] at hg
  cases hg
  rw [lineStringTrack_blank doc i ls anc hblank] at hf
  cases hf

/-- C4 witness: the three-LineString document, at encounter index 1
(whitespace-only coordinates). -/
theorem blank_linestring_skipped_witness :
    (docElemsByTagAnc doc3LS "LineString")[1]? = some (mkLineString "   ", [doc3LS]) ∧
    (parseLineStringsF doc3LS).map Track.originalIndex = [0, 2] ∧
    (parseLineStringsF doc3LS).length = 2 :=
  ⟨rfl, (blank_linestring_skipped doc3LS 1 (mkLineString "   ") [doc3LS] rfl
    (Or.inr ⟨Node.element "coordinates" [] [Node.text "   "], rfl, by decide⟩)).2⟩

/-- C5: the coordinate text `17.63,47.69,120 17.64,47.70` parses to
exactly two points, (lat 47.69, lon 17.63, alt 120) and (lat 47.70,
lon 17.64, alt 0): longitude is field 0, latitude field 1, and the
absent third field defaults alt to 0; the same two points form the
single track of a document holding that text in a LineString. -/
theorem coordinate_example_two_points :
    parseCoordinates "17.63,47.69,120 17.64,47.70" =
      [{ lat := JSNum.finite (mkRat 4769 100), lon := JSNum.finite (mkRat 1763 100),
         alt := JSNum.finite 120 },
       { lat := JSNum.finite (mkRat 4770 100), lon := JSNum.finite (mkRat 1764 100),
         alt := JSNum.finite 0 }] ∧
    parseLineStringsF docC5 =
      [{ name := "Track 1", description := none,
         points := [{ lat := JSNum.finite (mkRat 4769 100), lon := JSNum.finite (mkRat 1763 100),
                      alt := JSNum.finite 120 },
                    { lat := JSNum.finite (mkRat 4770 100), lon := JSNum.finite (mkRat 1764 100),
                      alt := JSNum.finite 0 }],
         originalIndex := 0, style := none }] := by
  constructor
  · decide
  · decide

/-- C6: an applicable IconStyle block with a numeric scale s produces
iconSize 32s by 32s and iconAnchor 16s by 16s with the fixed base size
32; concretely, the worked example (inline scale 2, no inline href,
styleUrl to a shared style with href icon.png) gives iconUrl icon.png,
iconSize 64 by 64 and iconAnchor 32 by 32. -/
theorem scale_iconSize_anchor :
    (∀ (ic : Node) (st : IconStyleRec) (sc : Node) (s : JSNum),
      (elemsByTag ic "scale").head? = some sc →
      parseFloat (textContent sc) = s →
      s.isNaNb = false →
      (readIconStyleBlock ic st).iconSize = some (s.mulPos 32, s.mulPos 32) ∧
      (readIconStyleBlock ic st).iconAnchor = some (s.mulPos 16, s.mulPos 16)) ∧
    parsePointsF docC6 =
      [{ name := "Point 1", description := none,
         position := { lat := JSNum.finite (mkRat 4769 100),
                       lon := JSNum.finite (mkRat 1763 100), alt := JSNum.finite 0 },
         originalIndex := 0,
         iconUrl := some "icon.png",
         iconSize := some (JSNum.finite 64, JSNum.finite 64),
         iconAnchor := some (JSNum.finite 32, JSNum.finite 32),
         style := some "#s1" }] := by
  constructor
  · intro ic st sc s hsc hpf hnan
    unfold readIconStyleBlock
    simp only [hsc, hpf, hnan, if_true]
    simp [half_mulPos_32]
  · decide

/-- C6 witness: the inline IconStyle element of the worked example, with
scale text 2. -/
theorem scale_iconSize_anchor_witness :
    parseFloat (textContent scaleC6) = JSNum.finite (mkRat 2 1) ∧
    (readIconStyleBlock inlineIconStyleC6 IconStyleRec.empty).iconSize =
      some ((JSNum.finite (mkRat 2 1)).mulPos 32, (JSNum.finite (mkRat 2 1)).mulPos 32) ∧
    (readIconStyleBlock inlineIconStyleC6 IconStyleRec.empty).iconAnchor =
      some ((JSNum.finite (mkRat 2 1)).mulPos 16, (JSNum.finite (mkRat 2 1)).mulPos 16) :=
  ⟨by decide,
   (scale_iconSize_anchor.1 inlineIconStyleC6 IconStyleRec.empty scaleC6
     (JSNum.finite (mkRat 2 1)) rfl (by decide) (by decide))⟩

/-- C7 (counterexample): the claim says only a LEADING hash is stripped
from the styleUrl text before the id lookup; the code removes the first
hash anywhere (`replace('#','')`), so the reference `s#1`, which has no
leading hash and matches no element id, still resolves to the style with
id `s1` and sets its href. -/
theorem styleUrl_hash_middle_counterexample :
    getElementById docHashMid "s#1" = none ∧
    (extractIconStyle docHashMid (some pmHashMid)).iconUrl = some "x.png" := by
  constructor
  · rfl
  · decide

/-- C7 (amended): with no inline icon URL and a styleUrl present, the
lookup key is the trimmed reference with its FIRST hash (anywhere)
removed; a failed whole-document id lookup leaves the record exactly as
the inline phase left it (absent fields stay absent), and a successful
lookup reads the referenced node's IconStyle, whose Icon href becomes
the icon URL. -/
theorem styleUrl_resolution (doc pm su : Node)
    (hinl : (inlineIconStyle pm).iconUrl = none)
    (hsu : (elemsByTag pm "styleUrl").head? = some su) :
    (getElementById doc (replaceFirstHash (jsTrim (textContent su))) = none →
      extractIconStyle doc (some pm) = inlineIconStyle pm) ∧
    (∀ n ic, getElementById doc (replaceFirstHash (jsTrim (textContent su))) = some n →
      (elemsByTag n "IconStyle").head? = some ic →
      extractIconStyle doc (some pm) = readIconStyleBlock ic (inlineIconStyle pm)) ∧
    (∀ n ic icn hr,
      getElementById doc (replaceFirstHash (jsTrim (textContent su))) = some n →
      (elemsByTag n "IconStyle").head? = some ic →
      (elemsByTag ic "Icon").head? = some icn →
      (elemsByTag icn "href").head? = some hr →
      (extractIconStyle doc (some pm)).iconUrl = some (jsTrim (textContent hr))) := by
  refine ⟨?_, ?_, ?_⟩
  · intro hnone
    unfold extractIconStyle
    simp only [hinl, strFalsy, if_true, hsu, hnone]
  · intro n ic hfound hic
    unfold extractIconStyle
    simp only [hinl, strFalsy, if_true, hsu, hfound, hic]
  · intro n ic icn hr hfound hic hicn hhr
    unfold extractIconStyle
    simp only [hinl, strFalsy, if_true, hsu, hfound, hic]
    exact readIconStyleBlock_iconUrl ic (inlineIconStyle pm) icn hr hicn hhr

/-- C7 witness: the worked example placemark, whose inline IconStyle has
no href and whose styleUrl `#s1` resolves to the shared style; the
referenced href becomes the icon URL. -/
theorem styleUrl_resolution_witness :
    (inlineIconStyle pmC6).iconUrl = none ∧
    (extractIconStyle docC6 (some pmC6)).iconUrl = some (jsTrim (textContent hrefC6)) :=
  ⟨by decide,
   (styleUrl_resolution docC6 pmC6 styleUrlC6 (by decide) rfl).2.2
     refStyleC6 refIconStyleC6 iconC6 hrefC6 rfl rfl rfl rfl⟩

/-- C8: parseKML is deterministic and pure with respect to its input
tree: the returned tracks and icons are independent of the parser state
the call starts from (the buffers are reset at the start of every call),
and repeating the call on the same tree from the state it left behind
returns the same result. -/
theorem parseKML_deterministic (s1 s2 : ParserState) (d : Node) :
    (parseKMLSt s1 d).2 = (parseKMLSt s2 d).2 ∧
    (parseKMLSt (parseKMLSt s1 d).1 d).2 = (parseKMLSt s1 d).2 :=
  ⟨rfl, rfl⟩

/-- C8 witness: determinism at a concrete document and two different
starting states. -/
theorem parseKML_deterministic_witness :
    (parseKMLSt stPrev docC5).2 = (parseKMLSt { tracks := [], icons := [] } docC5).2 ∧
    (parseKMLSt (parseKMLSt stPrev docC5).1 docC5).2 = (parseKMLSt stPrev docC5).2 :=
  parseKML_deterministic stPrev { tracks := [], icons := [] } docC5

/-- C9: a LineString or Point with nonempty parseable coordinates but no
enclosing Placemark still yields a Track or Icon, named by the synthetic
1-based fallback on the encounter index of its geometry kind, with
description and style reference absent. -/
theorem no_placemark_fallback :
    (∀ (doc : Node) (i : Nat) (ls : Node) (anc : List Node) (ce : Node),
      (elemsByTag ls "coordinates").head? = some ce →
      parseCoordinates (jsTrim (textContent ce)) ≠ [] →
      closestTag (ls :: anc) "Placemark" = none →
      ∃ t, lineStringTrack doc i ls anc = some t ∧
        t.name = "Track " ++ toString (i + 1) ∧
        t.description = none ∧ t.style = none) ∧
    (∀ (doc : Node) (i : Nat) (pt : Node) (anc : List Node) (ce : Node),
      (elemsByTag pt "coordinates").head? = some ce →
      parseCoordinates (jsTrim (textContent ce)) ≠ [] →
      closestTag (pt :: anc) "Placemark" = none →
      ∃ ic, pointIcon doc i pt anc = some ic ∧
        ic.name = "Point " ++ toString (i + 1) ∧
        ic.description = none ∧ ic.style = none) := by
  constructor
  · intro doc i ls anc ce hce hne hcl
    have hb : jsTrim (textContent ce) ≠ "" := by
      intro h0
      rw [h0] at hne
      exact hne parseCoordinates_empty
    rcases hpc : parseCoordinates (jsTrim (textContent ce)) with _ | ⟨p0, ps⟩
    · exact absurd hpc hne
    · refine ⟨_, lineStringTrack_eq_of doc i ls anc ce p0 ps hce hb hpc, ?_, ?_, ?_⟩ <;>
        simp [hcl, extractPlacemarkInfo, strOrDefault]
  · intro doc i pt anc ce hce hne hcl
    have hb : jsTrim (textContent ce) ≠ "" := by
      intro h0
      rw [h0] at hne
      exact hne parseCoordinates_empty
    rcases hpc : parseCoordinates (jsTrim (textContent ce)) with _ | ⟨c0, cs⟩
    · exact absurd hpc hne
    · refine ⟨_, pointIcon_eq_of doc i pt anc ce c0 cs hce hb hpc, ?_, ?_, ?_⟩ <;>
        simp [hcl, extractPlacemarkInfo, strOrDefault]

/-- C9 witness: the document with a bare LineString and a bare Point;
both produce entries with the synthetic names. -/
theorem no_placemark_fallback_witness :
    ((lineStringTrack docBare 0 (mkLineString "1,2") [docBare]).map Track.name =
      some ("Track " ++ toString (0 + 1))) ∧
    ((pointIcon docBare 0 (mkPoint "3,4") [docBare]).map Icon.name =
      some ("Point " ++ toString (0 + 1))) := by
  constructor
  · obtain ⟨t, h1, h2, _, _⟩ := no_placemark_fallback.1 docBare 0 (mkLineString "1,2")
      [docBare] (Node.element "coordinates" [] [Node.text "1,2"]) rfl (by decide) rfl
    rw [h1]
    simp [h2]
  · obtain ⟨ic, h1, h2, _, _⟩ := no_placemark_fallback.2 docBare 0 (mkPoint "3,4")
      [docBare] (Node.element "coordinates" [] [Node.text "3,4"]) rfl (by decide) rfl
    rw [h1]
    simp [h2]

/-- C10: a Placemark whose name element exists but is empty or
whitespace-only after trimming gets the same synthetic fallback name as
a missing name element, because the falsy empty string triggers the
`||` fallback. -/
theorem blank_name_fallback :
    (∀ (doc : Node) (i : Nat) (ls : Node) (anc : List Node) (pm ne : Node) (t : Track),
      closestTag (ls :: anc) "Placemark" = some pm →
      (elemsByTag pm "name").head? = some ne →
      jsTrim (textContent ne) = "" →
      lineStringTrack doc i ls anc = some t →
      t.name = "Track " ++ toString (i + 1)) ∧
    (∀ (doc : Node) (i : Nat) (pt : Node) (anc : List Node) (pm ne : Node) (ic : Icon),
      closestTag (pt :: anc) "Placemark" = some pm →
      (elemsByTag pm "name").head? = some ne →
      jsTrim (textContent ne) = "" →
      pointIcon doc i pt anc = some ic →
      ic.name = "Point " ++ toString (i + 1)) := by
  constructor
  · intro doc i ls anc pm ne t hcl hne htrim hsome
    unfold lineStringTrack at hsome
    split at hsome
    · cases hsome
    · split at hsome
      · dsimp only at hsome
        split at hsome
        · cases hsome
        · cases hsome
          simp [hcl, extractPlacemarkInfo, hne, htrim, strOrDefault]
      · cases hsome
  · intro doc i pt anc pm ne ic hcl hne htrim hsome
    unfold pointIcon at hsome
    split at hsome
    · cases hsome
    · split at hsome
      · dsimp only at hsome
        split at hsome
        · cases hsome
        · cases hsome
          simp [hcl, extractPlacemarkInfo, hne, htrim, strOrDefault]
      · cases hsome

/-- C10 witness: placemarks with a whitespace-only name around a
LineString and around a Point; both entries get the synthetic name. -/
theorem blank_name_fallback_witness :
    (lineStringTrack docBlankNameLS 0 (mkLineString "1,2")
        [pmBlankNameLS, docBlankNameLS] = some
      { name := "Track 1", description := none,
        points := [{ lat := JSNum.finite 2, lon := JSNum.finite 1, alt := JSNum.finite 0 }],
        originalIndex := 0, style := none }) ∧
    ({ name := "Track 1", description := none,
       points := [{ lat := JSNum.finite 2, lon := JSNum.finite 1, alt := JSNum.finite 0 }],
       originalIndex := 0, style := none } : Track).name = "Track " ++ toString (0 + 1) ∧
    (pointIcon docBlankNamePt 0 (mkPoint "1,2")
        [pmBlankNamePt, docBlankNamePt] = some
      { name := "Point 1", description := none,
        position := { lat := JSNum.finite 2, lon := JSNum.finite 1, alt := JSNum.finite 0 },
        originalIndex := 0, iconUrl := none, iconSize := none, iconAnchor := none,
        style := none }) ∧
    ({ name := "Point 1", description := none,
       position := { lat := JSNum.finite 2, lon := JSNum.finite 1, alt := JSNum.finite 0 },
       originalIndex := 0, iconUrl := none, iconSize := none, iconAnchor := none,
       style := none } : Icon).name = "Point " ++ toString (0 + 1) :=
  ⟨by decide,
   blank_name_fallback.1 docBlankNameLS 0 (mkLineString "1,2")
     [pmBlankNameLS, docBlankNameLS] pmBlankNameLS
     (Node.element "name" [] [Node.text "   "]) _ rfl rfl (by decide) (by decide),
   by decide,
   blank_name_fallback.2 docBlankNamePt 0 (mkPoint "1,2")
     [pmBlankNamePt, docBlankNamePt] pmBlankNamePt
     (Node.element "name" [] [Node.text "   "]) _ rfl rfl (by decide) (by decide)⟩

end RallyMaps
